import Mathlib

/-!
Shallow embedding of the lazy resource-graph resolution core of
`django_tastypie_digester` (file `django_tastypie_digester/core.py`),
together with theorems settling the specification claims.

Strings are modelled as `List Char`; Python `dict`s as insertion-ordered
association lists; exceptions as `Except PyErr`.  Where the code is
pinned to Python 2 semantics (it calls `dict.iteritems` / `dict.itervalues`),
the Python 2 meaning of `/` on ints (floor division) is used.
-/

set_option autoImplicit false

namespace Digester

abbrev PyStr := List Char

/-- Python exception outcomes raised by the embedded code paths. -/
inductive PyErr where
  | assertionError
  | valueError
  | attributeError
  | keyError
  | indexError
  | resourceIdMissing
  | tooManyResources
  | resourceDeleted
  | badHttpStatus (status : Nat)
deriving DecidableEq, Repr

instance instDecEqExcept {ε α : Type} [DecidableEq ε] [DecidableEq α] :
    DecidableEq (Except ε α)
  | .ok a, .ok b =>
    if h : a = b then .isTrue (by rw [h]) else .isFalse (by simp [h])
  | .ok _, .error _ => .isFalse (by simp)
  | .error _, .ok _ => .isFalse (by simp)
  | .error a, .error b =>
    if h : a = b then .isTrue (by rw [h]) else .isFalse (by simp [h])

/-- Python `s.split(sep)` for a one-character separator (keeps empty parts). -/
def pySplit (sep : Char) : PyStr → List PyStr
  | [] => [[]]
  | c :: rest =>
    match pySplit sep rest with
    | [] => [[]]
    | w :: ws => if c = sep then [] :: w :: ws else (c :: w) :: ws

theorem pySplit_ne_nil (sep : Char) (s : PyStr) : pySplit sep s ≠ [] := by
  cases s with
  | nil => simp [pySplit]
  | cons c rest =>
    simp only [pySplit]
    cases h : pySplit sep rest with
    | nil => simp
    | cons w ws =>
      by_cases hc : c = sep <;> simp [hc]

theorem pySplit_append_sep (sep : Char) (a b : PyStr) :
    pySplit sep (a ++ sep :: b) = pySplit sep a ++ pySplit sep b := by
  induction a with
  | nil =>
    simp only [List.nil_append, pySplit]
    cases h : pySplit sep b with
    | nil => exact absurd h (pySplit_ne_nil sep b)
    | cons w ws => simp
  | cons c a ih =>
    simp only [List.cons_append, pySplit, List.append_eq]
    rw [ih]
    cases ha : pySplit sep a with
    | nil => exact absurd ha (pySplit_ne_nil sep a)
    | cons w ws =>
      by_cases hc : c = sep <;> simp [hc]

theorem pySplit_no_sep (sep : Char) (s : PyStr) (h : sep ∉ s) :
    pySplit sep s = [s] := by
  induction s with
  | nil => rfl
  | cons c rest ih =>
    simp only [List.mem_cons, not_or] at h
    simp only [pySplit, ih h.2]
    have hcs : c ≠ sep := fun hc => h.1 hc.symm
    simp [hcs]

/-- The Python list slice `l[-3:-1]` (as used by `Parser.get_resource_ident`). -/
def pySliceLast3To1 (l : List PyStr) : List PyStr :=
  (l.drop (l.length - 3)).take ((l.length - 1) - (l.length - 3))

/-- `Parser.get_resource_ident`: `url.split('/')[-3:-1]`. -/
def get_resource_ident (url : PyStr) : List PyStr :=
  pySliceLast3To1 (pySplit '/' url)

/-- C8: for a URL of shape `{base}/{type}/{id}/` (the `type` and `id`
segments contain no slash), `get_resource_ident` returns `[type, id]`. -/
theorem C8_identify (base ty rid : PyStr) (hty : '/' ∉ ty) (hid : '/' ∉ rid) :
    get_resource_ident (base ++ '/' :: ty ++ '/' :: rid ++ ['/']) = [ty, rid] := by
  have hsplit : pySplit '/' (base ++ '/' :: ty ++ '/' :: rid ++ ['/'])
      = pySplit '/' base ++ [ty, rid, []] := by
    have h1 : base ++ '/' :: ty ++ '/' :: rid ++ ['/']
        = base ++ '/' :: (ty ++ '/' :: (rid ++ '/' :: ([] : PyStr))) := by
      simp
    rw [h1, pySplit_append_sep, pySplit_append_sep, pySplit_append_sep,
      pySplit_no_sep '/' ty hty, pySplit_no_sep '/' rid hid]
    rfl
  unfold get_resource_ident pySliceLast3To1
  rw [hsplit]
  generalize pySplit '/' base = l
  have hlen : (l ++ [ty, rid, []]).length = l.length + 3 := by simp
  rw [hlen]
  have e2 : l.length + 3 - 1 - (l.length + 3 - 3) = 2 := by omega
  have e1 : l.length + 3 - 3 = l.length := by omega
  rw [e2, e1, List.drop_left]
  rfl

/-- Witness for C8 at the spec's example URL `.../api/v1/mailing/42/`. -/
theorem C8_identify_witness :
    ('/' ∉ "mailing".toList ∧ '/' ∉ "42".toList) ∧
      get_resource_ident
        ("http://foo.bar/api/v1".toList ++ '/' :: "mailing".toList
          ++ '/' :: "42".toList ++ ['/'])
        = ["mailing".toList, "42".toList] :=
  ⟨⟨by decide, by decide⟩,
    C8_identify "http://foo.bar/api/v1".toList "mailing".toList "42".toList
      (by decide) (by decide)⟩

/-- Python `s.startswith(p)`. -/
def pyStartsWith : PyStr → PyStr → Bool
  | _, [] => true
  | [], _ :: _ => false
  | c :: s, p :: ps => c = p && pyStartsWith s ps

/-- An element of a sequence-valued field.  The code only distinguishes
string entries (fed to `get_resource_ident`) from non-string entries (which
make its `assert isinstance(url, str)` fail), so non-string JSON entries are
collapsed into `num`/`vnull`. -/
inductive ListItem where
  | str (s : PyStr)
  | num (n : Int)
  | vnull
deriving DecidableEq, Repr

/-- A JSON-ish field value as it appears in a decoded response body, extended
with the two lazy placeholders that materialization substitutes in:
`refOne` stands for a `ResourceProxy(endpoint name, id)`, `refList` for a
`ResourceProxyList(endpoint name, ids)`, and `emptyList` for the plain `[]`
that `ResourceProxyList.manufacture` returns for an empty relation list. -/
inductive FieldVal where
  | str (s : PyStr)
  | num (n : Int)
  | vnull
  | vlist (items : List ListItem)
  | refOne (name rid : PyStr)
  | refList (name : PyStr) (ids : List PyStr)
  | emptyList
deriving DecidableEq, Repr

/-- `Parser`: holds the service url and its base path. -/
structure Parser where
  url : PyStr
  base_path : PyStr
deriving DecidableEq, Repr

/-- `Parser.is_resource_url`: true iff the value is a string starting with
the base path. -/
def Parser.is_resource_url (p : Parser) (v : FieldVal) : Bool :=
  match v with
  | .str s => pyStartsWith s p.base_path
  | _ => false

/-- `Api`: the parser plus the names in the discovered endpoint registry
(`get_endpoint` raises `AttributeError` for names outside it). -/
structure Api where
  parser : Parser
  endpoints : List PyStr
  strip_trailing_slash : Bool
deriving DecidableEq, Repr

/-- Python tuple unpacking `name, id = l` for a 2-tuple pattern: raises
`ValueError` unless the list has exactly two elements. -/
def unpack2 (l : List PyStr) : Except PyErr (PyStr × PyStr) :=
  match l with
  | [a, b] => .ok (a, b)
  | _ => .error .valueError

/-- `Api.get_endpoint`: the endpoint for `name`, or `AttributeError` when the
name is not in the registry. -/
def Api.get_endpoint (api : Api) (name : PyStr) : Except PyErr PyStr :=
  if name ∈ api.endpoints then .ok name else .error .attributeError

/-- `ResourceProxy.manufacture(api, url)`: parse `(name, id)` out of the url
and bind a proxy to the endpoint named `name`.  The `assert isinstance(url,
str)` makes a non-string argument an `AssertionError`. -/
def ResourceProxy.manufacture (api : Api) (v : FieldVal) : Except PyErr FieldVal := do
  match v with
  | .str url =>
    let (name, rid) ← unpack2 (get_resource_ident url)
    let ep ← api.get_endpoint name
    .ok (.refOne ep rid)
  | _ => .error .assertionError

/-- One step of the loop in `ResourceProxyList.manufacture`:
`name, id = api.parser.get_resource_ident(item)` (the item must be a
string by the assertion inside `get_resource_ident`). -/
def identOf (v : ListItem) : Except PyErr (PyStr × PyStr) :=
  match v with
  | .str s => unpack2 (get_resource_ident s)
  | _ => .error .assertionError

/-- `Parser.is_resource_url` applied to a sequence entry. -/
def Parser.is_resource_url_item (p : Parser) (v : ListItem) : Bool :=
  match v with
  | .str s => pyStartsWith s p.base_path
  | _ => false

/-- The id-collecting loop of `ResourceProxyList.manufacture`: every item is
parsed (there is no `is_resource_url` filter in the code); the loop variable
`name` keeps the value from the last item. -/
def identsLoop : List ListItem → Except PyErr (PyStr × List PyStr)
  | [] => .error .assertionError
  | [v] => do
    let (n, i) ← identOf v
    .ok (n, [i])
  | v :: v2 :: rest => do
    let (_, i) ← identOf v
    let (n, ids) ← identsLoop (v2 :: rest)
    .ok (n, i :: ids)

/-- `ResourceProxyList.manufacture(api, data)`: an empty list yields the
plain `[]`; otherwise every entry is parsed for its id and the proxy list is
bound to the endpoint named by the last entry. -/
def ResourceProxyList.manufacture (api : Api) (data : List ListItem) :
    Except PyErr FieldVal := do
  if data = [] then .ok .emptyList
  else
    let (name, ids) ← identsLoop data
    let ep ← api.get_endpoint name
    .ok (.refList ep ids)

/-- Lookup in an insertion-ordered Python dict. -/
def pyLookup {κ α : Type} [DecidableEq κ] (d : List (κ × α)) (k : κ) : Option α :=
  match d with
  | [] => none
  | (k1, v) :: rest => if k1 = k then some v else pyLookup rest k

/-- `del d[k]` on an insertion-ordered Python dict. -/
def pyRemove {κ α : Type} [DecidableEq κ] (d : List (κ × α)) (k : κ) : List (κ × α) :=
  match d with
  | [] => []
  | (k1, v) :: rest => if k1 = k then rest else (k1, v) :: pyRemove rest k

/-- `d[k] = v` on an insertion-ordered Python dict: an existing key keeps its
position and gets the new value, a fresh key is appended at the end. -/
def pyDictInsert {κ α : Type} [DecidableEq κ] (d : List (κ × α)) (k : κ) (v : α) :
    List (κ × α) :=
  match pyLookup d k with
  | some _ => d.map (fun p => if p.1 = k then (p.1, v) else p)
  | none => d ++ [(k, v)]

theorem pyLookup_eq_none {κ α : Type} [DecidableEq κ] (d : List (κ × α)) (k : κ) :
    pyLookup d k = none ↔ k ∉ d.map Prod.fst := by
  induction d with
  | nil => simp [pyLookup]
  | cons p rest ih =>
    obtain ⟨k1, v⟩ := p
    by_cases h : k1 = k <;> simp [pyLookup, h, ih, Ne.symm]

theorem pyDictInsert_fresh {κ α : Type} [DecidableEq κ] (d : List (κ × α))
    (k : κ) (v : α) (h : k ∉ d.map Prod.fst) :
    pyDictInsert d k v = d ++ [(k, v)] := by
  unfold pyDictInsert
  rw [(pyLookup_eq_none d k).mpr h]

theorem pyLookup_append_right {κ α : Type} [DecidableEq κ]
    (d1 d2 : List (κ × α)) (k : κ) (h : k ∉ d1.map Prod.fst) :
    pyLookup (d1 ++ d2) k = pyLookup d2 k := by
  induction d1 with
  | nil => simp
  | cons p rest ih =>
    obtain ⟨k1, v⟩ := p
    simp only [List.map_cons, List.mem_cons, not_or] at h
    simp only [List.cons_append, pyLookup, if_neg (Ne.symm h.1)]
    exact ih h.2

theorem pyLookup_append_left {κ α : Type} [DecidableEq κ]
    (d1 d2 : List (κ × α)) (k : κ) (h : k ∈ d1.map Prod.fst) :
    pyLookup (d1 ++ d2) k = pyLookup d1 k := by
  induction d1 with
  | nil => simp at h
  | cons p rest ih =>
    obtain ⟨k1, v⟩ := p
    by_cases h1 : k1 = k
    · simp [pyLookup, h1]
    · simp only [List.map_cons, List.mem_cons] at h
      rcases h with h | h
      · exact absurd h.symm h1
      · simp only [List.cons_append, pyLookup, if_neg h1]
        exact ih h

/-- The per-field substitution step of `Resource.manufacture`'s loop. -/
def transformField (api : Api) (v : FieldVal) : Except PyErr FieldVal :=
  if api.parser.is_resource_url v then ResourceProxy.manufacture api v
  else
    match v with
    | .vlist items => ResourceProxyList.manufacture api items
    | _ => .ok v

/-- The whole field loop of `Resource.manufacture`, in dict order. -/
def transformFields (api : Api) :
    List (PyStr × FieldVal) → Except PyErr (List (PyStr × FieldVal))
  | [] => .ok []
  | (k, v) :: rest => do
    let v2 ← transformField api v
    let rest2 ← transformFields api rest
    .ok ((k, v2) :: rest2)

/-- A materialized `Resource`: its (already substituted) field dict and the
id parsed out of its removed `resource_uri`. -/
structure Resource where
  fields : List (PyStr × FieldVal)
  rid : PyStr
deriving DecidableEq, Repr

/-- `Resource.__getattr__`: a data field, or `AttributeError`. -/
def Resource.getattr (r : Resource) (a : PyStr) : Except PyErr FieldVal :=
  match pyLookup r.fields a with
  | some v => .ok v
  | none => .error .attributeError

/-- `Resource.manufacture(endpoint, data)`: pop `resource_uri`, substitute
every remaining field, then parse the identity out of the removed url. -/
def Resource.manufacture (api : Api) (data : List (PyStr × FieldVal)) :
    Except PyErr Resource := do
  let url ← match pyLookup data "resource_uri".toList with
    | some (.str u) => Except.ok u
    | some _ => Except.error PyErr.assertionError
    | none => Except.error PyErr.keyError
  let rest := pyRemove data "resource_uri".toList
  let fields ← transformFields api rest
  let (_, rid) ← unpack2 (get_resource_ident url)
  .ok ⟨fields, rid⟩

/-- `Resource.manufacture_many(endpoint, data)`, in order. -/
def Resource.manufacture_many (api : Api) :
    List (List (PyStr × FieldVal)) → Except PyErr (List Resource)
  | [] => .ok []
  | d :: rest => do
    let r ← Resource.manufacture api d
    let rs ← Resource.manufacture_many api rest
    .ok (r :: rs)

theorem identsLoop_spec (items : List ListItem) (name : PyStr) (ids : List PyStr)
    (h : identsLoop items = .ok (name, ids)) :
    ids.length = items.length ∧
      ∀ j, j < items.length →
        ∃ n, identOf (items.getD j .vnull) = .ok (n, ids.getD j []) := by
  induction items generalizing name ids with
  | nil => simp [identsLoop] at h
  | cons v rest ih =>
    cases rest with
    | nil =>
      simp only [identsLoop, bind, Except.bind] at h
      cases h1 : identOf v with
      | error e => rw [h1] at h; exact absurd h (by simp)
      | ok p =>
        rw [h1] at h
        simp only [Except.ok.injEq, Prod.mk.injEq] at h
        obtain ⟨hn, hi⟩ := h
        refine ⟨by simp [← hi], ?_⟩
        intro j hj
        simp only [List.length_cons, List.length_nil] at hj
        have hj0 : j = 0 := by omega
        subst hj0
        exact ⟨p.1, by simpa [← hi, ← hn] using h1⟩
    | cons v2 rest2 =>
      simp only [identsLoop, bind, Except.bind] at h
      cases h1 : identOf v with
      | error e => rw [h1] at h; exact absurd h (by simp)
      | ok p =>
        rw [h1] at h
        cases h2 : identsLoop (v2 :: rest2) with
        | error e => rw [h2] at h; exact absurd h (by simp)
        | ok q =>
          rw [h2] at h
          simp only [Except.ok.injEq, Prod.mk.injEq] at h
          obtain ⟨hn, hi⟩ := h
          obtain ⟨hlen, hall⟩ := ih q.1 q.2 (by rw [h2])
          refine ⟨by simp [← hi, hlen], ?_⟩
          intro j hj
          cases j with
          | zero => exact ⟨p.1, by simpa [← hi] using h1⟩
          | succ j2 =>
            simp only [List.length_cons, Nat.succ_lt_succ_iff] at hj
            obtain ⟨n, hm⟩ := hall j2 hj
            exact ⟨n, by simpa [← hi] using hm⟩

/-- C7 counterexample: in `Resource.manufacture`, a sequence entry that is
NOT classified as a resource URL (here `/nope/user/2/` against base path
`/api/v1/`) still contributes its parsed id to the `ResourceProxyList` —
nothing is dropped before id extraction, contradicting the claim that the
ids come only from entries classified as resource URLs. -/
theorem C7_counterexample :
    (Parser.is_resource_url_item ⟨"http://h/api/v1/".toList, "/api/v1/".toList⟩
        (.str "/nope/user/2/".toList) = false) ∧
      Resource.manufacture
        ⟨⟨"http://h/api/v1/".toList, "/api/v1/".toList⟩, ["user".toList], false⟩
        [("resource_uri".toList, .str "/api/v1/book/7/".toList),
          ("rel".toList,
            .vlist [.str "/api/v1/user/1/".toList, .str "/nope/user/2/".toList])]
        = .ok ⟨[("rel".toList,
            .refList "user".toList ["1".toList, "2".toList])], "7".toList⟩ :=
  ⟨by decide, by rfl⟩

/-- C7 amended: a non-empty sequence-valued field is replaced by a
`ResourceRefList` whose ids are parsed out of EVERY entry of the sequence
(entries not classified as resource URLs are parsed all the same, not
dropped), bound to the endpoint named by the last entry's parse. -/
theorem C7_list_field_ids (api : Api) (items : List ListItem) (name : PyStr)
    (ids : List PyStr) (hloop : identsLoop items = .ok (name, ids))
    (hep : name ∈ api.endpoints) :
    transformField api (.vlist items) = .ok (.refList name ids) ∧
      ids.length = items.length ∧
      ∀ j, j < items.length →
        ∃ n, identOf (items.getD j .vnull) = .ok (n, ids.getD j []) := by
  obtain ⟨hlen, hall⟩ := identsLoop_spec items name ids hloop
  have hne : items ≠ [] := by
    intro he
    rw [he] at hloop
    simp [identsLoop] at hloop
  refine ⟨?_, hlen, hall⟩
  have hcls : api.parser.is_resource_url (.vlist items) = false := rfl
  simp only [transformField, hcls, Bool.false_eq_true, if_false]
  simp only [ResourceProxyList.manufacture, hne, if_false, bind, Except.bind, hloop]
  simp [Api.get_endpoint, hep]

/-- Witness for the amended C7 theorem: a two-entry relation list where the
second entry is not a resource URL yet contributes id `2`. -/
theorem C7_list_field_ids_witness :
    (identsLoop [.str "/api/v1/user/1/".toList, .str "/nope/user/2/".toList]
        = .ok ("user".toList, ["1".toList, "2".toList]) ∧
      "user".toList ∈
        (⟨⟨"http://h/api/v1/".toList, "/api/v1/".toList⟩,
          ["user".toList], false⟩ : Api).endpoints) ∧
      (transformField
          ⟨⟨"http://h/api/v1/".toList, "/api/v1/".toList⟩, ["user".toList], false⟩
          (.vlist [.str "/api/v1/user/1/".toList, .str "/nope/user/2/".toList])
        = .ok (.refList "user".toList ["1".toList, "2".toList]) ∧
        ["1".toList, "2".toList].length
          = [ListItem.str "/api/v1/user/1/".toList,
              ListItem.str "/nope/user/2/".toList].length ∧
        ∀ j, j < [ListItem.str "/api/v1/user/1/".toList,
              ListItem.str "/nope/user/2/".toList].length →
          ∃ n, identOf ([ListItem.str "/api/v1/user/1/".toList,
              ListItem.str "/nope/user/2/".toList].getD j .vnull)
            = .ok (n, (["1".toList, "2".toList]).getD j [])) :=
  ⟨⟨by rfl, by decide⟩,
    C7_list_field_ids _ _ _ _ (by rfl) (by decide)⟩

/-- The decoded body of the batch GET `{type}/set/{id1};{id2};.../`:
`objects` holds the found raw resources; `not_found` is the optional list of
missing ids (already through Python `int()`, as the code applies it). -/
structure SetResponse where
  objects : List (List (PyStr × FieldVal))
  not_found : Option (List Int)

/-- The list comprehension `[(r.id, r) for r in resources]` of `get_many`:
each key is the resource's `id` DATA field (via `Resource.__getattr__`). -/
def idKeyPairs : List Resource → Except PyErr (List (FieldVal × Option Resource))
  | [] => .ok []
  | r :: rest => do
    let k ← r.getattr "id".toList
    let ps ← idKeyPairs rest
    .ok ((k, some r) :: ps)

/-- `dict(pairs)`: left-to-right insertion. -/
def pyDictOfPairs {κ α : Type} [DecidableEq κ] (ps : List (κ × α)) : List (κ × α) :=
  ps.foldl (fun d p => pyDictInsert d p.1 p.2) []

/-- `EndpointProxy.get_many`: manufacture the `objects`, key them by their
`id` data field, then map every `not_found` id to `None`. -/
def EndpointProxy.get_many (api : Api) (resp : SetResponse) :
    Except PyErr (List (FieldVal × Option Resource)) := do
  let rs ← Resource.manufacture_many api resp.objects
  let ps ← idKeyPairs rs
  let d0 := pyDictOfPairs ps
  match resp.not_found with
  | none => .ok d0
  | some nf => .ok (nf.foldl (fun d i => pyDictInsert d (.num i) none) d0)

theorem foldl_pyDictInsert_fresh {κ α : Type} [DecidableEq κ]
    (ps : List (κ × α)) (d : List (κ × α))
    (hfresh : ∀ k, k ∈ ps.map Prod.fst → k ∉ d.map Prod.fst)
    (hnodup : (ps.map Prod.fst).Nodup) :
    ps.foldl (fun d p => pyDictInsert d p.1 p.2) d = d ++ ps := by
  induction ps generalizing d with
  | nil => simp
  | cons p rest ih =>
    obtain ⟨k, v⟩ := p
    simp only [List.map_cons, List.nodup_cons] at hnodup
    simp only [List.foldl_cons]
    rw [pyDictInsert_fresh d k v (hfresh k (by simp))]
    rw [ih (d ++ [(k, v)]) ?_ hnodup.2]
    · simp
    · intro k2 hk2
      simp only [List.map_append, List.mem_append, List.map_cons, List.map_nil,
        List.mem_singleton, not_or]
      refine ⟨hfresh k2 (by simp [hk2]), ?_⟩
      intro he
      exact hnodup.1 (he ▸ hk2)

theorem pyDictOfPairs_nodup {κ α : Type} [DecidableEq κ]
    (ps : List (κ × α)) (hnodup : (ps.map Prod.fst).Nodup) :
    pyDictOfPairs ps = ps := by
  unfold pyDictOfPairs
  rw [foldl_pyDictInsert_fresh ps [] (by simp) hnodup]
  simp

theorem pyLookup_map_zip (found : List Int) (rs : List Resource)
    (hnodup : found.Nodup) (i : Int) (r : Resource)
    (hmem : (i, r) ∈ found.zip rs) :
    pyLookup ((found.zip rs).map (fun p => (FieldVal.num p.1, some p.2)))
      (FieldVal.num i) = some (some r) := by
  induction found generalizing rs with
  | nil => simp at hmem
  | cons f frest ih =>
    cases rs with
    | nil => simp at hmem
    | cons r1 rrest =>
      simp only [List.zip_cons_cons, List.mem_cons] at hmem
      simp only [List.nodup_cons] at hnodup
      rcases hmem with hmem | hmem
      · obtain ⟨hi, hr⟩ := Prod.mk.injEq .. ▸ hmem
        simp [pyLookup, hi, hr]
      · have hif : FieldVal.num f ≠ FieldVal.num i := by
          intro he
          simp only [FieldVal.num.injEq] at he
          exact hnodup.1 (he ▸ (List.of_mem_zip hmem).1)
        simp only [List.zip_cons_cons, List.map_cons, pyLookup, if_neg hif]
        exact ih rrest hnodup.2 hmem

theorem pyLookup_nf_map (nf : List Int) (i : Int) (hi : i ∈ nf) :
    pyLookup (nf.map (fun j => (FieldVal.num j, (none : Option Resource))))
      (FieldVal.num i) = some none := by
  induction nf with
  | nil => simp at hi
  | cons n rest ih =>
    by_cases he : n = i
    · simp [pyLookup, he]
    · have hr : i ∈ rest := by
        rcases List.mem_cons.mp hi with h | h
        · exact absurd h.symm he
        · exact h
      simp only [List.map_cons, pyLookup]
      rw [if_neg (by simp [he])]
      exact ih hr

/-- C2: for a compliant batch response — every requested id is either the
`id` field of exactly one returned object or listed in `not_found`, with no
overlap and no duplicates — `get_many` returns a dict whose key set is
exactly the requested ids, mapping each found id to its materialized
resource and each `not_found` id to `None`. -/
theorem C2_get_many (api : Api) (request : List Int) (resp : SetResponse)
    (rs : List Resource) (found nf : List Int)
    (hrs : Resource.manufacture_many api resp.objects = .ok rs)
    (hpairs : idKeyPairs rs
      = .ok ((found.zip rs).map (fun p => (FieldVal.num p.1, some p.2))))
    (hflen : found.length = rs.length)
    (hnf : resp.not_found = some nf)
    (hnodupF : found.Nodup) (hnodupN : nf.Nodup)
    (hdisj : ∀ i, i ∈ found → i ∉ nf)
    (hcover : ∀ i, i ∈ request ↔ (i ∈ found ∨ i ∈ nf)) :
    ∃ d, EndpointProxy.get_many api resp = .ok d ∧
      (∀ k, k ∈ d.map Prod.fst ↔ ∃ i, i ∈ request ∧ k = FieldVal.num i) ∧
      (∀ i r, (i, r) ∈ found.zip rs →
        pyLookup d (FieldVal.num i) = some (some r)) ∧
      (∀ i, i ∈ nf → pyLookup d (FieldVal.num i) = some none) := by
  have hk : ∀ (l : List Int) (m : List Resource), l.length = m.length →
      ((l.zip m).map (fun p => (FieldVal.num p.1, some p.2))).map Prod.fst
        = l.map FieldVal.num := by
    intro l
    induction l with
    | nil => intro m _; simp
    | cons a l2 ih =>
      intro m hm
      cases m with
      | nil => simp at hm
      | cons b m2 =>
        simp only [List.zip_cons_cons, List.map_cons]
        rw [ih m2 (by simpa using hm)]
  have hkeys0 : ((found.zip rs).map (fun p => (FieldVal.num p.1, some p.2))).map
      Prod.fst = found.map FieldVal.num := hk found rs hflen
  set ps := (found.zip rs).map (fun p => (FieldVal.num p.1, some p.2)) with hps
  have hd0 : pyDictOfPairs ps = ps := by
    apply pyDictOfPairs_nodup
    rw [hkeys0]
    exact hnodupF.map (fun a b h => by simpa using h)
  set nfps := nf.map (fun i => (FieldVal.num i, (none : Option Resource))) with hnfps
  have hd1 : nf.foldl (fun d i => pyDictInsert d (.num i) none) (pyDictOfPairs ps)
      = ps ++ nfps := by
    rw [hd0]
    have : nf.foldl (fun d i => pyDictInsert d (.num i) none) ps
        = nfps.foldl (fun d p => pyDictInsert d p.1 p.2) ps := by
      rw [hnfps, List.foldl_map]
    rw [this]
    apply foldl_pyDictInsert_fresh
    · intro k hk
      rw [hnfps] at hk
      simp only [List.map_map] at hk
      rw [show ((Prod.fst ∘ fun i : Int => (FieldVal.num i, (none : Option Resource)))
        = fun i => FieldVal.num i) from rfl] at hk
      rw [hkeys0]
      obtain ⟨i, hi, hke⟩ := List.mem_map.mp hk
      subst hke
      intro hcontra
      obtain ⟨i2, hi2, he⟩ := List.mem_map.mp hcontra
      simp only [FieldVal.num.injEq] at he
      exact hdisj i2 hi2 (he ▸ hi)
    · rw [hnfps, List.map_map]
      rw [show ((Prod.fst ∘ fun i : Int => (FieldVal.num i, (none : Option Resource)))
        = fun i => FieldVal.num i) from rfl]
      exact hnodupN.map (fun a b h => by simpa using h)
  refine ⟨ps ++ nfps, ?_, ?_, ?_, ?_⟩
  · simp only [EndpointProxy.get_many, bind, Except.bind, hrs, hpairs, ← hps, hnf]
    rw [hd1]
  · intro k
    simp only [List.map_append, List.mem_append, hkeys0]
    rw [hnfps, List.map_map]
    rw [show ((Prod.fst ∘ fun i : Int => (FieldVal.num i, (none : Option Resource)))
      = fun i => FieldVal.num i) from rfl]
    constructor
    · intro h
      rcases h with h | h
      · obtain ⟨i, hi, he⟩ := List.mem_map.mp h
        exact ⟨i, (hcover i).mpr (Or.inl hi), he.symm⟩
      · obtain ⟨i, hi, he⟩ := List.mem_map.mp h
        exact ⟨i, (hcover i).mpr (Or.inr hi), he.symm⟩
    · rintro ⟨i, hi, he⟩
      subst he
      rcases (hcover i).mp hi with h | h
      · exact Or.inl (List.mem_map.mpr ⟨i, h, rfl⟩)
      · exact Or.inr (List.mem_map.mpr ⟨i, h, rfl⟩)
  · intro i r hmem
    have hin : FieldVal.num i ∈ ps.map Prod.fst := by
      rw [hkeys0]
      exact List.mem_map.mpr ⟨i, (List.of_mem_zip hmem).1, rfl⟩
    rw [pyLookup_append_left ps nfps _ hin, hps]
    exact pyLookup_map_zip found rs hnodupF i r hmem
  · intro i hi
    have hnotin : FieldVal.num i ∉ ps.map Prod.fst := by
      rw [hkeys0]
      intro hcontra
      obtain ⟨i2, hi2, he⟩ := List.mem_map.mp hcontra
      simp only [FieldVal.num.injEq] at he
      exact hdisj i2 hi2 (he ▸ hi)
    rw [pyLookup_append_right ps nfps _ hnotin, hnfps]
    exact pyLookup_nf_map nf i hi

/-- Witness for C2 at the spec's example: ids `[1, 2, 999]` where `999` is
missing on the server. -/
theorem C2_get_many_witness :
    (Resource.manufacture_many
        ⟨⟨"http://h/api/v1/".toList, "/api/v1/".toList⟩, ["user".toList], false⟩
        [[("resource_uri".toList, .str "/api/v1/user/1/".toList),
            ("id".toList, .num 1)],
          [("resource_uri".toList, .str "/api/v1/user/2/".toList),
            ("id".toList, .num 2)]]
        = .ok [⟨[("id".toList, FieldVal.num 1)], "1".toList⟩,
            ⟨[("id".toList, FieldVal.num 2)], "2".toList⟩] ∧
      ([1, 2] : List Int).length
          = [(⟨[("id".toList, FieldVal.num 1)], "1".toList⟩ : Resource),
              ⟨[("id".toList, FieldVal.num 2)], "2".toList⟩].length ∧
      ([1, 2] : List Int).Nodup ∧ ([999] : List Int).Nodup) ∧
      (∃ d, EndpointProxy.get_many
          ⟨⟨"http://h/api/v1/".toList, "/api/v1/".toList⟩, ["user".toList], false⟩
          ⟨[[("resource_uri".toList, .str "/api/v1/user/1/".toList),
              ("id".toList, .num 1)],
            [("resource_uri".toList, .str "/api/v1/user/2/".toList),
              ("id".toList, .num 2)]], some [999]⟩
          = .ok d ∧
        (∀ k, k ∈ d.map Prod.fst ↔
          ∃ i, i ∈ ([1, 2, 999] : List Int) ∧ k = FieldVal.num i) ∧
        (∀ i r, (i, r) ∈ ([1, 2] : List Int).zip
            [(⟨[("id".toList, FieldVal.num 1)], "1".toList⟩ : Resource),
              ⟨[("id".toList, FieldVal.num 2)], "2".toList⟩] →
          pyLookup d (FieldVal.num i) = some (some r)) ∧
        (∀ i, i ∈ ([999] : List Int) →
          pyLookup d (FieldVal.num i) = some none)) :=
  ⟨⟨by rfl, by decide, by decide, by decide⟩,
    C2_get_many _ [1, 2, 999] _ _ [1, 2] [999]
      (by rfl) (by rfl) (by decide) (by rfl) (by decide) (by decide)
      (by decide)
      (by intro i; simp [or_assoc])⟩

/-- One decoded listing page: its `objects` and `meta['next']` (where `none`
models JSON `null`; note `some []`, the empty string, is also falsy for the
`if not next` check in the code). -/
structure PageData where
  objects : List (List (PyStr × FieldVal))
  next : Option PyStr
deriving DecidableEq, Repr

/-- Python falsiness of the `next` cursor value. -/
def nextFalsy : Option PyStr → Bool
  | none => true
  | some s => s.isEmpty

/-- A filtered listing as the server serves it: `meta['total_count']` from
the first response, the first page (served again by `_fetch`), and the chain
of pages reached by following `meta['next']`. -/
structure FilterListing where
  total_count : Int
  firstPage : PageData
  morePages : List PageData
deriving DecidableEq, Repr

/-- The page list really is the `next`-chain: every page before the last has
a truthy `next`, and the last page's `next` is falsy. -/
def chainWf : PageData → List PageData → Prop
  | p, [] => nextFalsy p.next = true
  | p, q :: rest => nextFalsy p.next = false ∧ chainWf q rest

/-- `ResourceList._iterate_pages`: recursively fetch (`1` request per page),
materialize and accumulate each page of the chain. -/
def ResourceList.iterate_pages (api : Api) :
    List PageData → Except PyErr (List Resource × Nat)
  | [] => .ok ([], 0)
  | p :: rest => do
    let rs ← Resource.manufacture_many api p.objects
    let (more, n) ← ResourceList.iterate_pages api rest
    .ok (rs ++ more, n + 1)

/-- `ResourceList._fetch` run to exhaustion: re-issues the filter request
(one request), materializes the first page, then follows the chain.  Returns
the yielded resources in page order and the number of GETs issued. -/
def ResourceList.fetch (api : Api) (L : FilterListing) :
    Except PyErr (List Resource × Nat) := do
  let rs ← Resource.manufacture_many api L.firstPage.objects
  let (more, n) ← ResourceList.iterate_pages api L.morePages
  .ok (rs ++ more, n + 1)

/-- Mutable state of a `ResourceList`: `_cache` and `_is_cached`. -/
structure RLState where
  cache : List Resource
  is_cached : Bool
deriving DecidableEq, Repr

def RLState.fresh : RLState := ⟨[], false⟩

/-- `ResourceList.__iter__` run to exhaustion: replay the cache when
`_is_cached`, otherwise run `_fetch` (which accumulates into the cache). -/
def ResourceList.iter (api : Api) (L : FilterListing) (st : RLState) :
    Except PyErr (List Resource × RLState × Nat) :=
  if st.is_cached then .ok (st.cache, st, 0)
  else do
    let (rs, n) ← ResourceList.fetch api L
    .ok (rs, ⟨st.cache ++ rs, true⟩, n)

theorem manufacture_many_length (api : Api) (objs : List (List (PyStr × FieldVal)))
    (rs : List Resource) (h : Resource.manufacture_many api objs = .ok rs) :
    rs.length = objs.length := by
  induction objs generalizing rs with
  | nil =>
    simp only [Resource.manufacture_many, Except.ok.injEq] at h
    simp [← h]
  | cons o rest ih =>
    simp only [Resource.manufacture_many, bind, Except.bind] at h
    cases h1 : Resource.manufacture api o with
    | error e => rw [h1] at h; exact absurd h (by simp)
    | ok r =>
      rw [h1] at h
      cases h2 : Resource.manufacture_many api rest with
      | error e => rw [h2] at h; exact absurd h (by simp)
      | ok rs2 =>
        rw [h2] at h
        simp only [Except.ok.injEq] at h
        simp [← h, ih rs2 h2]

theorem iterate_pages_spec (api : Api) (pages : List PageData)
    (rs : List Resource) (n : Nat)
    (h : ResourceList.iterate_pages api pages = .ok (rs, n)) :
    n = pages.length ∧ rs.length = (pages.map (fun p => p.objects.length)).sum := by
  induction pages generalizing rs n with
  | nil =>
    simp only [ResourceList.iterate_pages, Except.ok.injEq, Prod.mk.injEq] at h
    simp [← h.1, ← h.2]
  | cons p rest ih =>
    simp only [ResourceList.iterate_pages, bind, Except.bind] at h
    cases h1 : Resource.manufacture_many api p.objects with
    | error e => rw [h1] at h; exact absurd h (by simp)
    | ok prs =>
      rw [h1] at h
      cases h2 : ResourceList.iterate_pages api rest with
      | error e => rw [h2] at h; exact absurd h (by simp)
      | ok q =>
        rw [h2] at h
        simp only [Except.ok.injEq, Prod.mk.injEq] at h
        obtain ⟨hrs, hn⟩ := h
        obtain ⟨hn2, hlen2⟩ := ih q.1 q.2 (by rw [h2])
        constructor
        · simp [← hn, hn2]
        · simp [← hrs, manufacture_many_length api p.objects prs h1, hlen2]

/-- C4: over a listing whose pages form the `next`-chain and whose page sizes
sum to `total_count`, the first full iteration yields exactly `total_count`
resources (in page order, as produced by `_fetch`) and caches them; every
further iteration replays the same list with zero additional requests. -/
theorem C4_paged_iteration (api : Api) (L : FilterListing)
    (rs : List Resource) (n : Nat)
    (hchain : chainWf L.firstPage L.morePages)
    (hfetch : ResourceList.fetch api L = .ok (rs, n))
    (hsizes : (L.firstPage.objects.length : Int)
        + ((L.morePages.map (fun p => p.objects.length)).sum : Int)
      = L.total_count) :
    ResourceList.iter api L RLState.fresh = .ok (rs, ⟨rs, true⟩, n) ∧
      (rs.length : Int) = L.total_count ∧
      ResourceList.iter api L ⟨rs, true⟩ = .ok (rs, ⟨rs, true⟩, 0) := by
  refine ⟨?_, ?_, by simp [ResourceList.iter]⟩
  · simp only [ResourceList.iter, RLState.fresh, Bool.false_eq_true, if_false,
      bind, Except.bind, hfetch]
    simp
  · simp only [ResourceList.fetch, bind, Except.bind] at hfetch
    cases h1 : Resource.manufacture_many api L.firstPage.objects with
    | error e => rw [h1] at hfetch; exact absurd hfetch (by simp)
    | ok frs =>
      rw [h1] at hfetch
      cases h2 : ResourceList.iterate_pages api L.morePages with
      | error e => rw [h2] at hfetch; exact absurd hfetch (by simp)
      | ok q =>
        rw [h2] at hfetch
        simp only [Except.ok.injEq, Prod.mk.injEq] at hfetch
        obtain ⟨hrs, hn⟩ := hfetch
        obtain ⟨hn2, hlen2⟩ := iterate_pages_spec api L.morePages q.1 q.2 (by rw [h2])
        rw [← hrs, ← hsizes]
        have hlen : (frs ++ q.1).length = L.firstPage.objects.length
            + (L.morePages.map (fun p => p.objects.length)).sum := by
          simp [manufacture_many_length api L.firstPage.objects frs h1, hlen2]
        rw [hlen, Nat.cast_add, Nat.cast_list_sum, List.map_map, add_right_inj]
        exact congrArg List.sum (List.map_congr_left (fun a _ => rfl))

/-- Witness for C4: three pages of sizes 20, 20 and 5 with `total_count` 45
yield exactly 45 resources on first iteration and replay from cache after. -/
theorem C4_paged_iteration_witness :
    (chainWf
        (⟨List.replicate 20 [("resource_uri".toList, .str "/a/u/1/".toList)],
          some "/p2/".toList⟩ : PageData)
        [⟨List.replicate 20 [("resource_uri".toList, .str "/a/u/1/".toList)],
            some "/p3/".toList⟩,
          ⟨List.replicate 5 [("resource_uri".toList, .str "/a/u/1/".toList)],
            none⟩] ∧
      ResourceList.fetch ⟨⟨"/a/".toList, "/a/".toList⟩, [], false⟩
          ⟨45,
            ⟨List.replicate 20 [("resource_uri".toList, .str "/a/u/1/".toList)],
              some "/p2/".toList⟩,
            [⟨List.replicate 20 [("resource_uri".toList, .str "/a/u/1/".toList)],
                some "/p3/".toList⟩,
              ⟨List.replicate 5 [("resource_uri".toList, .str "/a/u/1/".toList)],
                none⟩]⟩
        = .ok (List.replicate 45 ⟨[], "1".toList⟩, 3)) ∧
      (ResourceList.iter ⟨⟨"/a/".toList, "/a/".toList⟩, [], false⟩
          ⟨45,
            ⟨List.replicate 20 [("resource_uri".toList, .str "/a/u/1/".toList)],
              some "/p2/".toList⟩,
            [⟨List.replicate 20 [("resource_uri".toList, .str "/a/u/1/".toList)],
                some "/p3/".toList⟩,
              ⟨List.replicate 5 [("resource_uri".toList, .str "/a/u/1/".toList)],
                none⟩]⟩
          RLState.fresh
        = .ok (List.replicate 45 ⟨[], "1".toList⟩,
            ⟨List.replicate 45 ⟨[], "1".toList⟩, true⟩, 3) ∧
        ((List.replicate 45 (⟨[], "1".toList⟩ : Resource)).length : Int) = 45 ∧
        ResourceList.iter ⟨⟨"/a/".toList, "/a/".toList⟩, [], false⟩
          ⟨45,
            ⟨List.replicate 20 [("resource_uri".toList, .str "/a/u/1/".toList)],
              some "/p2/".toList⟩,
            [⟨List.replicate 20 [("resource_uri".toList, .str "/a/u/1/".toList)],
                some "/p3/".toList⟩,
              ⟨List.replicate 5 [("resource_uri".toList, .str "/a/u/1/".toList)],
                none⟩]⟩
          ⟨List.replicate 45 ⟨[], "1".toList⟩, true⟩
        = .ok (List.replicate 45 ⟨[], "1".toList⟩,
            ⟨List.replicate 45 ⟨[], "1".toList⟩, true⟩, 0)) :=
  ⟨⟨by constructor <;> simp [nextFalsy, chainWf], by rfl⟩,
    C4_paged_iteration _ _ _ _
      (by constructor <;> simp [nextFalsy, chainWf]) (by rfl) (by decide)⟩

/-- The filter-based branch of `EndpointProxy.get` (no id): require filters,
require `count() == 1`, then take element `[0]` of the full iteration. -/
def EndpointProxy.get_by_filters (api : Api) (L : FilterListing)
    (filters : List (PyStr × PyStr)) : Except PyErr Resource :=
  if filters = [] then .error .resourceIdMissing
  else if L.total_count ≠ 1 then .error .tooManyResources
  else do
    let (rs, _, _) ← ResourceList.iter api L RLState.fresh
    match rs with
    | [] => .error .indexError
    | r :: _ => .ok r

/-- `EndpointProxy.get(id, **kwargs)`: a truthy id takes the direct GET path
(`byId` is the server's single-object response); a falsy or absent id falls
through to the filter branch. -/
def EndpointProxy.get (api : Api) (byId : PyStr → List (PyStr × FieldVal))
    (L : FilterListing) (id : Option PyStr) (filters : List (PyStr × PyStr)) :
    Except PyErr Resource :=
  match id with
  | some i =>
    if i = [] then EndpointProxy.get_by_filters api L filters
    else Resource.manufacture api (byId i)
  | none => EndpointProxy.get_by_filters api L filters

/-- C3: `get` with neither id nor filters raises `ResourceIdMissing`
(MissingIdentifier); with filters it returns the unique match when the
listing's total count is exactly 1 and it raises `TooManyResources`
(AmbiguousResult) for any other count, zero included. -/
theorem C3_get_filters (api : Api) (byId : PyStr → List (PyStr × FieldVal))
    (L1 L2 : FilterListing) (filters : List (PyStr × PyStr))
    (r : Resource) (rest : List Resource) (st : RLState) (n : Nat)
    (hf : filters ≠ [])
    (h1 : L1.total_count = 1)
    (h2 : L2.total_count ≠ 1)
    (hiter : ResourceList.iter api L1 RLState.fresh = .ok (r :: rest, st, n)) :
    EndpointProxy.get api byId L1 none [] = .error .resourceIdMissing ∧
      EndpointProxy.get api byId L2 none filters = .error .tooManyResources ∧
      EndpointProxy.get api byId L1 none filters = .ok r := by
  refine ⟨by simp [EndpointProxy.get, EndpointProxy.get_by_filters], ?_, ?_⟩
  · simp [EndpointProxy.get, EndpointProxy.get_by_filters, hf, h2]
  · simp only [EndpointProxy.get, EndpointProxy.get_by_filters, hf, if_neg hf,
      h1, ne_eq, not_true_eq_false, if_false, bind, Except.bind, hiter]

/-- Witness for C3: a one-match listing returns its resource; a two-match
listing raises `TooManyResources`. -/
theorem C3_get_filters_witness :
    ((([("name".toList, "x".toList)] : List (PyStr × PyStr)) ≠ []) ∧
      (⟨1, ⟨[[("resource_uri".toList, .str "/a/u/9/".toList)]], none⟩, []⟩
        : FilterListing).total_count = 1 ∧
      (⟨2, ⟨[[("resource_uri".toList, .str "/a/u/9/".toList)],
          [("resource_uri".toList, .str "/a/u/8/".toList)]], none⟩, []⟩
        : FilterListing).total_count ≠ 1) ∧
      (EndpointProxy.get ⟨⟨"/a/".toList, "/a/".toList⟩, [], false⟩
          (fun _ => [])
          ⟨1, ⟨[[("resource_uri".toList, .str "/a/u/9/".toList)]], none⟩, []⟩
          none [] = .error .resourceIdMissing ∧
        EndpointProxy.get ⟨⟨"/a/".toList, "/a/".toList⟩, [], false⟩
          (fun _ => [])
          ⟨2, ⟨[[("resource_uri".toList, .str "/a/u/9/".toList)],
              [("resource_uri".toList, .str "/a/u/8/".toList)]], none⟩, []⟩
          none [("name".toList, "x".toList)] = .error .tooManyResources ∧
        EndpointProxy.get ⟨⟨"/a/".toList, "/a/".toList⟩, [], false⟩
          (fun _ => [])
          ⟨1, ⟨[[("resource_uri".toList, .str "/a/u/9/".toList)]], none⟩, []⟩
          none [("name".toList, "x".toList)] = .ok ⟨[], "9".toList⟩) :=
  ⟨⟨by decide, by decide, by decide⟩,
    C3_get_filters _ _ _ _ _ ⟨[], "9".toList⟩ [] ⟨[⟨[], "9".toList⟩], true⟩ 1
      (by decide) (by decide) (by decide) (by rfl)⟩

/-- Mutable state of a `ResourceProxy`: the `_resource` cache slot.  A
`Resource` instance is always truthy (the class defines no `__bool__`/
`__len__`/`__nonzero__`), so the code's `if not self._resource` is exactly
an emptiness test on this slot. -/
structure RPState where
  resource : Option Resource
deriving DecidableEq, Repr

/-- `ResourceProxy._fetch`: fetch through the endpoint (`fetched` is the
server's answer for this proxy's id; one request when the slot is empty),
memoize, and return the slot.  The third component counts requests. -/
def ResourceProxy.fetchStep (fetched : Resource) (st : RPState) :
    Resource × RPState × Nat :=
  match st.resource with
  | some r => (r, st, 0)
  | none => (fetched, ⟨some fetched⟩, 1)

/-- `ResourceProxy.__getattr__`: delegate the attribute lookup to the
(possibly just fetched) resource. -/
def ResourceProxy.getattrStep (fetched : Resource) (attr : PyStr) (st : RPState) :
    Except PyErr FieldVal × RPState × Nat :=
  let (r, st2, n) := ResourceProxy.fetchStep fetched st
  (r.getattr attr, st2, n)

/-- A run of `k` successive attribute accesses on one proxy, threading the
cache slot and summing the issued requests. -/
def ResourceProxy.accessRun (fetched : Resource) (attr : PyStr) :
    Nat → RPState → List (Except PyErr FieldVal) × RPState × Nat
  | 0, st => ([], st, 0)
  | k + 1, st =>
    let (v, st2, n1) := ResourceProxy.getattrStep fetched attr st
    let (vs, st3, n2) := ResourceProxy.accessRun fetched attr k st2
    (v :: vs, st3, n1 + n2)

/-- C5: over its whole lifetime a `ResourceProxy` issues at most one fetch —
`k` attribute accesses starting from the empty slot issue `min k 1`
requests, every access returns the first fetched resource's attribute, and
the slot permanently holds that resource after the first access. -/
theorem C5_proxy_single_fetch (fetched : Resource) (attr : PyStr) (k : Nat) :
    ResourceProxy.accessRun fetched attr k ⟨none⟩
      = (List.replicate k (fetched.getattr attr),
          ⟨if k = 0 then none else some fetched⟩, min k 1) := by
  cases k with
  | zero => rfl
  | succ k2 =>
    simp only [ResourceProxy.accessRun, ResourceProxy.getattrStep,
      ResourceProxy.fetchStep, Nat.succ_ne_zero, if_false, List.replicate_succ]
    have hcached : ∀ m, ResourceProxy.accessRun fetched attr m ⟨some fetched⟩
        = (List.replicate m (fetched.getattr attr), ⟨some fetched⟩, 0) := by
      intro m
      induction m with
      | zero => rfl
      | succ m2 ih =>
        simp [ResourceProxy.accessRun, ResourceProxy.getattrStep,
          ResourceProxy.fetchStep, ih, List.replicate_succ]
    simp [hcached k2]

/-- HTTP methods as issued by the embedded mutation paths. -/
inductive Method where
  | httpGet
  | httpPost
  | httpPatch
  | httpDelete
deriving DecidableEq, Repr

/-- `Api.get_url(resource_name, resource_id)` with no query arguments:
service url + `name/` + `id/`, optionally stripped of its slashes. -/
def Api.get_url (api : Api) (resource_name resource_id : PyStr) : PyStr :=
  let u := api.parser.url ++ resource_name ++ ['/'] ++ resource_id ++ ['/']
  if api.strip_trailing_slash then (u.dropWhile (· = '/')).reverse.dropWhile
    (· = '/') |>.reverse else u

/-- Outcome of one `Resource.delete()` call: the returned value or raised
error, the `_is_deleted` flag afterwards, and the requests issued. -/
structure DeleteOutcome where
  result : Except PyErr Bool
  is_deleted : Bool
  reqs : List (Method × PyStr)
deriving DecidableEq, Repr

/-- `Resource.delete()`: refuse when already deleted (no request); otherwise
issue DELETE to the resource's own url, raise `BadHttpStatus` unless the
status is 204 (the flag assignment comes after the raise), else set the
flag. -/
def Resource.delete (api : Api) (name rid : PyStr) (is_del : Bool)
    (status : Nat) : DeleteOutcome :=
  if is_del then ⟨.error .resourceDeleted, is_del, []⟩
  else
    let url := api.get_url name rid
    if status ≠ 204 then ⟨.error (.badHttpStatus status), is_del, [(.httpDelete, url)]⟩
    else ⟨.ok true, true, [(.httpDelete, url)]⟩

/-- Outcome of one `Resource.update(**kwargs)` call. -/
structure UpdateOutcome where
  result : Except PyErr Resource
  is_deleted : Bool
  reqs : List (Method × PyStr)
deriving DecidableEq, Repr

/-- `Resource.update()`: refuse when already deleted (no request); otherwise
PATCH the resource's own url, raise `BadHttpStatus` unless the status is
202, else re-fetch through `endpoint.get(id)` and return that.  The
`_is_deleted` flag is never written by this method. -/
def Resource.update (api : Api) (byId : PyStr → List (PyStr × FieldVal))
    (L : FilterListing) (name rid : PyStr) (is_del : Bool) (status : Nat) :
    UpdateOutcome :=
  if is_del then ⟨.error .resourceDeleted, is_del, []⟩
  else
    let url := api.get_url name rid
    if status ≠ 202 then ⟨.error (.badHttpStatus status), is_del, [(.httpPatch, url)]⟩
    else ⟨EndpointProxy.get api byId L (some rid) [], is_del,
      [(.httpPatch, url), (.httpGet, url)]⟩

/-- C6: a successful `delete` issues exactly one DELETE to the resource's
own url and sets the flag; any non-204 status raises `BadHttpStatus`; once
the flag is set, `delete` raises `ResourceGone` with no second DELETE and
`update` raises `ResourceGone` with no request at all. -/
theorem C6_delete_lifecycle (api : Api) (byId : PyStr → List (PyStr × FieldVal))
    (L : FilterListing) (name rid : PyStr) (status status2 : Nat)
    (hbad : status ≠ 204) :
    Resource.delete api name rid false 204
        = ⟨.ok true, true, [(.httpDelete, api.get_url name rid)]⟩ ∧
      (Resource.delete api name rid false status).result
        = .error (.badHttpStatus status) ∧
      Resource.delete api name rid true status2
        = ⟨.error .resourceDeleted, true, []⟩ ∧
      Resource.update api byId L name rid true status2
        = ⟨.error .resourceDeleted, true, []⟩ := by
  refine ⟨by simp [Resource.delete], ?_, by simp [Resource.delete],
    by simp [Resource.update]⟩
  simp [Resource.delete, hbad]

/-- Witness for C6 at status 500. -/
theorem C6_delete_lifecycle_witness :
    ((500 : Nat) ≠ 204) ∧
      (Resource.delete ⟨⟨"/a/".toList, "/a/".toList⟩, [], false⟩
          "user".toList "7".toList false 204
        = ⟨.ok true, true,
            [(.httpDelete,
              Api.get_url ⟨⟨"/a/".toList, "/a/".toList⟩, [], false⟩
                "user".toList "7".toList)]⟩ ∧
      (Resource.delete ⟨⟨"/a/".toList, "/a/".toList⟩, [], false⟩
          "user".toList "7".toList false 500).result
        = .error (.badHttpStatus 500) ∧
      Resource.delete ⟨⟨"/a/".toList, "/a/".toList⟩, [], false⟩
          "user".toList "7".toList true 204
        = ⟨.error .resourceDeleted, true, []⟩ ∧
      Resource.update ⟨⟨"/a/".toList, "/a/".toList⟩, [], false⟩ (fun _ => [])
          ⟨0, ⟨[], none⟩, []⟩ "user".toList "7".toList true 204
        = ⟨.error .resourceDeleted, true, []⟩) :=
  ⟨by decide,
    C6_delete_lifecycle ⟨⟨"/a/".toList, "/a/".toList⟩, [], false⟩ (fun _ => [])
      ⟨0, ⟨[], none⟩, []⟩ "user".toList "7".toList 500 204 (by decide)⟩

/-- C10: mutation failure is atomic on the `_is_deleted` flag.  A `delete`
that sees a non-204 status raises before the flag assignment, so the flag
stays `false` and a later `delete` (or `update`) proceeds normally; a failed
`update` never touches the flag either. -/
theorem C10_failed_mutation_atomic (api : Api)
    (byId : PyStr → List (PyStr × FieldVal)) (L : FilterListing)
    (name rid : PyStr) (status status2 : Nat) (d : Bool)
    (hbad : status ≠ 204) (hbad2 : status2 ≠ 202) :
    (Resource.delete api name rid false status).result
        = .error (.badHttpStatus status) ∧
      (Resource.delete api name rid false status).is_deleted = false ∧
      Resource.delete api name rid
          (Resource.delete api name rid false status).is_deleted 204
        = ⟨.ok true, true, [(.httpDelete, api.get_url name rid)]⟩ ∧
      (Resource.update api byId L name rid false status2).result
        = .error (.badHttpStatus status2) ∧
      (Resource.update api byId L name rid d status2).is_deleted = d := by
  refine ⟨?_, ?_, ?_, ?_, ?_⟩
  · simp [Resource.delete, hbad]
  · simp [Resource.delete, hbad]
  · simp [Resource.delete, hbad]
  · simp [Resource.update, hbad2]
  · cases d <;> simp [Resource.update, hbad2]

/-- Witness for C10 at statuses 500 / 400. -/
theorem C10_failed_mutation_atomic_witness :
    ((500 : Nat) ≠ 204 ∧ (400 : Nat) ≠ 202) ∧
      ((Resource.delete ⟨⟨"/a/".toList, "/a/".toList⟩, [], false⟩
          "user".toList "7".toList false 500).result
        = .error (.badHttpStatus 500) ∧
      (Resource.delete ⟨⟨"/a/".toList, "/a/".toList⟩, [], false⟩
          "user".toList "7".toList false 500).is_deleted = false ∧
      Resource.delete ⟨⟨"/a/".toList, "/a/".toList⟩, [], false⟩
          "user".toList "7".toList
          (Resource.delete ⟨⟨"/a/".toList, "/a/".toList⟩, [], false⟩
            "user".toList "7".toList false 500).is_deleted 204
        = ⟨.ok true, true,
            [(.httpDelete,
              Api.get_url ⟨⟨"/a/".toList, "/a/".toList⟩, [], false⟩
                "user".toList "7".toList)]⟩ ∧
      (Resource.update ⟨⟨"/a/".toList, "/a/".toList⟩, [], false⟩ (fun _ => [])
          ⟨0, ⟨[], none⟩, []⟩ "user".toList "7".toList false 400).result
        = .error (.badHttpStatus 400) ∧
      (Resource.update ⟨⟨"/a/".toList, "/a/".toList⟩, [], false⟩ (fun _ => [])
          ⟨0, ⟨[], none⟩, []⟩ "user".toList "7".toList true 400).is_deleted
        = true) :=
  ⟨⟨by decide, by decide⟩,
    C10_failed_mutation_atomic ⟨⟨"/a/".toList, "/a/".toList⟩, [], false⟩
      (fun _ => []) ⟨0, ⟨[], none⟩, []⟩ "user".toList "7".toList 500 400 true
      (by decide) (by decide)⟩

/-- `ResourceProxyList.PAGE_ROWS`. -/
def PAGE_ROWS : Nat := 20

/-- The page count computed by `_fetch`: `int(ceil(len(self._ids) /
self.PAGE_ROWS))`.  The iteration methods call `dict.iteritems` /
`dict.itervalues` and therefore only run under Python 2, where `/` on two
ints floors first — so `ceil` receives an already-floored integer and the
page count is `len(ids) // PAGE_ROWS`, not the ceiling. -/
def ResourceProxyList.pages_count (ids : List PyStr) : Nat :=
  ids.length / PAGE_ROWS

/-- The id slices `ids[offset : offset + PAGE_ROWS]` that `_fetch` passes to
`get_many`, in order. -/
def ResourceProxyList.chunks (ids : List PyStr) : List (List PyStr) :=
  (List.range (ResourceProxyList.pages_count ids)).map
    (fun p => (ids.drop (p * PAGE_ROWS)).take PAGE_ROWS)

/-- `ResourceProxyList._fetch` run to exhaustion against a `get_many` oracle
(`srvMany` gives the pairs of the dict the endpoint returns for one chunk,
in insertion order): yields the pairs chunk by chunk and issues one
`get_many` request per chunk. -/
def ResourceProxyList.fetch
    (srvMany : List PyStr → List (FieldVal × Option Resource))
    (ids : List PyStr) : List (FieldVal × Option Resource) × Nat :=
  (((ResourceProxyList.chunks ids).map srvMany).flatten,
    ResourceProxyList.pages_count ids)

/-- C1 (code bug): a `ResourceRefList` with 45 ids and chunk size 20 issues
only `45 // 20 = 2` batch requests covering 40 ids — not the `ceil(45/20) =
3` requests covering all 45 that the claim (and the code's own intent, per
its call to `math.ceil`) requires; the last 5 ids are never requested. -/
theorem C1_code_divergence :
    ResourceProxyList.pages_count (List.replicate 45 "i".toList) = 2 ∧
      (ResourceProxyList.fetch
          (fun l => l.map (fun i => (FieldVal.str i, none)))
          (List.replicate 45 "i".toList)).2 = 2 ∧
      (ResourceProxyList.fetch
          (fun l => l.map (fun i => (FieldVal.str i, none)))
          (List.replicate 45 "i".toList)).1.length = 40 ∧
      (45 + PAGE_ROWS - 1) / PAGE_ROWS = 3 := by
  refine ⟨by decide, by decide, ?_, by decide⟩
  rfl

/-- Mutable state of a `ResourceProxyList`: `_cache` (a dict from id key to
value, insertion-ordered; ids are assumed distinct so inserts append) and
`_is_cached`. -/
structure RPLState where
  cache : List (FieldVal × Option Resource)
  is_cached : Bool
deriving DecidableEq, Repr

/-- How many leading chunks a consumer touches to pull `k` items: the
generator starts a chunk's `get_many` request as soon as it needs the
chunk's first item. -/
def chunksFor {α : Type} : List (List α) → Nat → Nat
  | _, 0 => 0
  | [], _ + 1 => 0
  | c :: rest, k + 1 => chunksFor rest (k + 1 - c.length) + 1

/-- The observable outcome of a fresh `ResourceProxyList`'s first iteration
abandoned after consuming `k` items: the yielded values, the state left
behind (`_is_cached` was set at the first generator step, before any
request; the cache holds exactly the yielded pairs, each inserted just
before its `yield`), and the number of `get_many` requests issued. -/
def ResourceProxyList.abandonedFirstIter
    (srvMany : List PyStr → List (FieldVal × Option Resource))
    (ids : List PyStr) (k : Nat) : List (Option Resource) × RPLState × Nat :=
  let css := (ResourceProxyList.chunks ids).map srvMany
  let pairs := css.flatten.take k
  (pairs.map Prod.snd, ⟨pairs, decide (0 < k)⟩, chunksFor css k)

/-- `ResourceProxyList.__iter__` run to exhaustion: replay the cache values
(`dict.itervalues`) when `_is_cached`, else run `_fetch`. -/
def ResourceProxyList.iter
    (srvMany : List PyStr → List (FieldVal × Option Resource))
    (ids : List PyStr) (st : RPLState) :
    List (Option Resource) × RPLState × Nat :=
  if st.is_cached then (st.cache.map Prod.snd, st, 0)
  else
    let (pairs, n) := ResourceProxyList.fetch srvMany ids
    (pairs.map Prod.snd, ⟨pairs, true⟩, n)

/-- Per-page materialization of a listing's page chain. -/
def manufacturePages (api : Api) :
    List PageData → Except PyErr (List (List Resource))
  | [] => .ok []
  | p :: rest => do
    let rs ← Resource.manufacture_many api p.objects
    let more ← manufacturePages api rest
    .ok (rs :: more)

theorem manufacturePages_iterate (api : Api) (pages : List PageData)
    (ms : List (List Resource)) (h : manufacturePages api pages = .ok ms) :
    ResourceList.iterate_pages api pages = .ok (ms.flatten, ms.length) := by
  induction pages generalizing ms with
  | nil =>
    simp only [manufacturePages, Except.ok.injEq] at h
    simp [ResourceList.iterate_pages, ← h]
  | cons p rest ih =>
    simp only [manufacturePages, bind, Except.bind] at h
    cases h1 : Resource.manufacture_many api p.objects with
    | error e => rw [h1] at h; exact absurd h (by simp)
    | ok prs =>
      rw [h1] at h
      cases h2 : manufacturePages api rest with
      | error e => rw [h2] at h; exact absurd h (by simp)
      | ok more =>
        rw [h2] at h
        simp only [Except.ok.injEq] at h
        simp only [ResourceList.iterate_pages, bind, Except.bind, h1, ih more h2]
        simp [← h]

theorem manufacturePages_fetch (api : Api) (L : FilterListing)
    (prs : List (List Resource))
    (h : manufacturePages api (L.firstPage :: L.morePages) = .ok prs) :
    ResourceList.fetch api L = .ok (prs.flatten, prs.length) := by
  simp only [manufacturePages, bind, Except.bind] at h
  cases h1 : Resource.manufacture_many api L.firstPage.objects with
  | error e => rw [h1] at h; exact absurd h (by simp)
  | ok frs =>
    rw [h1] at h
    cases h2 : manufacturePages api L.morePages with
    | error e => rw [h2] at h; exact absurd h (by simp)
    | ok more =>
      rw [h2] at h
      simp only [Except.ok.injEq] at h
      simp only [ResourceList.fetch, bind, Except.bind, h1,
        manufacturePages_iterate api L.morePages more h2]
      simp [← h]

/-- The state a fresh `ResourceList` is left in when its first iteration is
abandoned after consuming `k` items: `_is_cached` was set at the first
generator step, and `_cache` holds every page fetched so far — each page is
appended to the cache in full before its items are yielded, so the cache
covers the `chunksFor` pages touched to produce `k` items. -/
def ResourceList.abandonedState (prs : List (List Resource)) (k : Nat) : RLState :=
  ⟨(prs.take (chunksFor prs k)).flatten, decide (0 < k)⟩

/-- C9: for both lazy containers the `cached` flag is set at the START of
the first fetch, so an abandoned first iteration leaves a state whose later
iterations replay only the partially accumulated cache with zero requests;
the full streams (`_fetch` / the page chain) extend those caches, and the
unreached tail is never served by this instance. -/
theorem C9_abandoned_iteration_cache
    (srvMany : List PyStr → List (FieldVal × Option Resource))
    (ids : List PyStr) (k : Nat) (hk : 0 < k)
    (api : Api) (L : FilterListing) (prs : List (List Resource)) (k2 : Nat)
    (hk2 : 0 < k2)
    (hprs : manufacturePages api (L.firstPage :: L.morePages) = .ok prs) :
    ((ResourceProxyList.abandonedFirstIter srvMany ids k).2.1.is_cached = true ∧
      ResourceProxyList.iter srvMany ids
          (ResourceProxyList.abandonedFirstIter srvMany ids k).2.1
        = ((ResourceProxyList.abandonedFirstIter srvMany ids k).1,
            (ResourceProxyList.abandonedFirstIter srvMany ids k).2.1, 0) ∧
      (ResourceProxyList.abandonedFirstIter srvMany ids k).1.length
        = min k ((ResourceProxyList.chunks ids).map srvMany).flatten.length) ∧
      ((ResourceList.abandonedState prs k2).is_cached = true ∧
        ResourceList.iter api L (ResourceList.abandonedState prs k2)
          = .ok ((prs.take (chunksFor prs k2)).flatten,
              ResourceList.abandonedState prs k2, 0) ∧
        ResourceList.fetch api L = .ok (prs.flatten, prs.length) ∧
        (prs.take (chunksFor prs k2)).flatten
            ++ (prs.drop (chunksFor prs k2)).flatten = prs.flatten) := by
  refine ⟨⟨?_, ?_, ?_⟩, ?_, ?_, manufacturePages_fetch api L prs hprs, ?_⟩
  · simp [ResourceProxyList.abandonedFirstIter, hk]
  · simp [ResourceProxyList.abandonedFirstIter, ResourceProxyList.iter, hk]
  · simp only [ResourceProxyList.abandonedFirstIter, List.length_map,
      List.length_take]
  · simp [ResourceList.abandonedState, hk2]
  · simp [ResourceList.abandonedState, ResourceList.iter, hk2]
  · rw [← List.flatten_append, List.take_append_drop]

/-- Witness for C9: 40 ids consumed up to item 5 (one chunk touched), and a
two-page listing consumed up to item 1 (one page cached). -/
theorem C9_abandoned_iteration_cache_witness :
    ((0 : Nat) < 5 ∧ (0 : Nat) < 1 ∧
      manufacturePages ⟨⟨"/a/".toList, "/a/".toList⟩, [], false⟩
          ((⟨3,
            ⟨[[("resource_uri".toList, .str "/a/u/1/".toList)],
                [("resource_uri".toList, .str "/a/u/1/".toList)]],
              some "/p2/".toList⟩,
            [⟨[[("resource_uri".toList, .str "/a/u/1/".toList)]], none⟩]⟩
            : FilterListing).firstPage
            :: (⟨3,
            ⟨[[("resource_uri".toList, .str "/a/u/1/".toList)],
                [("resource_uri".toList, .str "/a/u/1/".toList)]],
              some "/p2/".toList⟩,
            [⟨[[("resource_uri".toList, .str "/a/u/1/".toList)]], none⟩]⟩
            : FilterListing).morePages)
        = .ok [[⟨[], "1".toList⟩, ⟨[], "1".toList⟩], [⟨[], "1".toList⟩]]) ∧
      (((ResourceProxyList.abandonedFirstIter
            (fun l => l.map (fun i => (FieldVal.str i, none)))
            (List.replicate 40 "i".toList) 5).2.1.is_cached = true ∧
        ResourceProxyList.iter
            (fun l => l.map (fun i => (FieldVal.str i, none)))
            (List.replicate 40 "i".toList)
            (ResourceProxyList.abandonedFirstIter
              (fun l => l.map (fun i => (FieldVal.str i, none)))
              (List.replicate 40 "i".toList) 5).2.1
          = ((ResourceProxyList.abandonedFirstIter
                (fun l => l.map (fun i => (FieldVal.str i, none)))
                (List.replicate 40 "i".toList) 5).1,
              (ResourceProxyList.abandonedFirstIter
                (fun l => l.map (fun i => (FieldVal.str i, none)))
                (List.replicate 40 "i".toList) 5).2.1, 0) ∧
        (ResourceProxyList.abandonedFirstIter
            (fun l => l.map (fun i => (FieldVal.str i, none)))
            (List.replicate 40 "i".toList) 5).1.length
          = min 5 ((ResourceProxyList.chunks (List.replicate 40 "i".toList)).map
              (fun l => l.map (fun i =>
                (FieldVal.str i, (none : Option Resource))))).flatten.length) ∧
      ((ResourceList.abandonedState
          [[⟨[], "1".toList⟩, ⟨[], "1".toList⟩], [⟨[], "1".toList⟩]] 1).is_cached
          = true ∧
        ResourceList.iter ⟨⟨"/a/".toList, "/a/".toList⟩, [], false⟩
            ⟨3,
              ⟨[[("resource_uri".toList, .str "/a/u/1/".toList)],
                  [("resource_uri".toList, .str "/a/u/1/".toList)]],
                some "/p2/".toList⟩,
              [⟨[[("resource_uri".toList, .str "/a/u/1/".toList)]], none⟩]⟩
            (ResourceList.abandonedState
              [[⟨[], "1".toList⟩, ⟨[], "1".toList⟩], [⟨[], "1".toList⟩]] 1)
          = .ok (([[⟨[], "1".toList⟩, ⟨[], "1".toList⟩],
                [⟨[], "1".toList⟩]].take (chunksFor
                [[(⟨[], "1".toList⟩ : Resource), ⟨[], "1".toList⟩],
                  [⟨[], "1".toList⟩]] 1)).flatten,
              ResourceList.abandonedState
                [[⟨[], "1".toList⟩, ⟨[], "1".toList⟩], [⟨[], "1".toList⟩]] 1, 0) ∧
        ResourceList.fetch ⟨⟨"/a/".toList, "/a/".toList⟩, [], false⟩
            ⟨3,
              ⟨[[("resource_uri".toList, .str "/a/u/1/".toList)],
                  [("resource_uri".toList, .str "/a/u/1/".toList)]],
                some "/p2/".toList⟩,
              [⟨[[("resource_uri".toList, .str "/a/u/1/".toList)]], none⟩]⟩
          = .ok ([[(⟨[], "1".toList⟩ : Resource), ⟨[], "1".toList⟩],
              [⟨[], "1".toList⟩]].flatten,
              [[(⟨[], "1".toList⟩ : Resource), ⟨[], "1".toList⟩],
                [⟨[], "1".toList⟩]].length) ∧
        ([[(⟨[], "1".toList⟩ : Resource), ⟨[], "1".toList⟩],
            [⟨[], "1".toList⟩]].take (chunksFor
            [[(⟨[], "1".toList⟩ : Resource), ⟨[], "1".toList⟩],
              [⟨[], "1".toList⟩]] 1)).flatten
          ++ ([[(⟨[], "1".toList⟩ : Resource), ⟨[], "1".toList⟩],
            [⟨[], "1".toList⟩]].drop (chunksFor
            [[(⟨[], "1".toList⟩ : Resource), ⟨[], "1".toList⟩],
              [⟨[], "1".toList⟩]] 1)).flatten
          = [[(⟨[], "1".toList⟩ : Resource), ⟨[], "1".toList⟩],
              [⟨[], "1".toList⟩]].flatten)) :=
  ⟨⟨by decide, by decide, by rfl⟩,
    C9_abandoned_iteration_cache
      (fun l => l.map (fun i => (FieldVal.str i, none)))
      (List.replicate 40 "i".toList) 5 (by decide)
      ⟨⟨"/a/".toList, "/a/".toList⟩, [], false⟩
      ⟨3,
        ⟨[[("resource_uri".toList, .str "/a/u/1/".toList)],
            [("resource_uri".toList, .str "/a/u/1/".toList)]],
          some "/p2/".toList⟩,
        [⟨[[("resource_uri".toList, .str "/a/u/1/".toList)]], none⟩]⟩
      [[⟨[], "1".toList⟩, ⟨[], "1".toList⟩], [⟨[], "1".toList⟩]] 1
      (by decide) (by rfl)⟩

end Digester
